import Mathlib

/-!
Shallow embedding of the grid-layout / pagination engine of
`src/utils/qrCodeGenerator.ts` (the final revisions of the functions:
`calculateContentPositions`, `getPageDimensions`, `detectSets`,
`calculateLayout`, and the pagination loop of `generatePDF`).

Millimetre quantities are modelled as `ℚ` (the source uses JS numbers and the
spec treats the arithmetic exactly).  Optional JS fields are modelled as
`Option`; the JS falsy-fallback idiom `a || b` on numbers is modelled by
`orDefault` (`0` falls back), and on optional numbers by an explicit match.
A JS number that is the result of `Number(...)` on an unparseable string is
`NaN`; we model such values as `Option ℚ` with `none` standing for `NaN`
(every comparison with `NaN` is false in JS, which the comparison helpers
below reproduce).
-/

namespace QRGen

/-- JS `a || b` for numbers: `0` (falsy) falls back to the default. -/
def orDefault (x d : ℚ) : ℚ := if x = 0 then d else x

/-- Page size: a named preset or an explicit width×height pair (mm). -/
inductive PageSize where
  | a4
  | a3
  | letter
  | custom
  | explicit (width height : ℚ)
deriving DecidableEq

/-- Page orientation. -/
inductive Orientation where
  | portrait
  | landscape
deriving DecidableEq

/--
The layout-relevant fields of `GenerationOptions`, after the
`{ ...defaultOptions, ...options }` merge performed at each entry point.
Colour, font and footer-text fields are omitted: they never influence the
layout computations the claims are about.  `boxesPerRow`, `boxesPerColumn`,
`qrCodeWidth`, `qrCodeHeight` and `quantityRepeat` are optional in the
source (`undefined` unless the caller supplies them), hence `Option` here.
-/
structure GenerationOptions where
  boxWidth : ℚ
  boxHeight : ℚ
  qrCodeSize : ℚ
  orientation : Orientation
  pageSize : PageSize
  boxesPerRow : Option ℕ
  boxesPerColumn : Option ℕ
  countOutsideBox : Bool
  boxSpacing : ℚ
  rowSpacing : ℚ
  showFooter : Bool
  qrCodeWidth : Option ℚ
  qrCodeHeight : Option ℚ
  serialToBoxGap : ℚ
  serialToQrGap : ℚ
  qrToBoxGap : ℚ
  useQuantityRepeat : Bool
  quantityRepeat : Option ℕ
deriving DecidableEq

/-- The source's `defaultOptions` (layout-relevant fields). -/
def defaultOptions : GenerationOptions where
  boxWidth := 50
  boxHeight := 30
  qrCodeSize := 6/10
  orientation := .portrait
  pageSize := .a4
  boxesPerRow := none
  boxesPerColumn := none
  countOutsideBox := true
  boxSpacing := 10
  rowSpacing := 10
  showFooter := true
  qrCodeWidth := none
  qrCodeHeight := none
  serialToBoxGap := 31/10
  serialToQrGap := 63/10
  qrToBoxGap := 257/100
  useQuantityRepeat := false
  quantityRepeat := none

/-- Result record of `calculateContentPositions`. -/
structure ContentPositions where
  serialX : ℚ
  qrX : ℚ
  qrWidth : ℚ
  qrHeight : ℚ
  totalContentWidth : ℚ
  isValidLayout : Bool
deriving DecidableEq

/--
`calculateContentPositions` (source lines 916–940).  The three gap fields
go through the JS `||` fallback against the defaults; the explicit QR
dimensions are used only when both are truthy (present and nonzero).
-/
def calculateContentPositions (opts : GenerationOptions) : ContentPositions :=
  let serialX := orDefault opts.serialToBoxGap defaultOptions.serialToBoxGap
  let qrX := serialX + orDefault opts.serialToQrGap defaultOptions.serialToQrGap
  let qrWH : ℚ × ℚ :=
    match opts.qrCodeWidth, opts.qrCodeHeight with
    | some w, some h =>
        if w ≠ 0 ∧ h ≠ 0 then (w, h)
        else (opts.boxHeight * opts.qrCodeSize, opts.boxHeight * opts.qrCodeSize)
    | _, _ => (opts.boxHeight * opts.qrCodeSize, opts.boxHeight * opts.qrCodeSize)
  let totalContentWidth := serialX + orDefault opts.serialToQrGap defaultOptions.serialToQrGap
      + qrWH.1 + orDefault opts.qrToBoxGap defaultOptions.qrToBoxGap
  { serialX := serialX
    qrX := qrX
    qrWidth := qrWH.1
    qrHeight := qrWH.2
    totalContentWidth := totalContentWidth
    isValidLayout := decide (totalContentWidth ≤ opts.boxWidth) }

/-- `getPageDimensions` (source lines 942–968): preset resolution, then the
landscape swap.  Returns (width, height) in mm. -/
def getPageDimensions (pageSize : PageSize) (orientation : Orientation) : ℚ × ℚ :=
  let wh : ℚ × ℚ :=
    match pageSize with
    | .explicit w h => (w, h)
    | .a3 => (297, 420)
    | .letter => (2159/10, 2794/10)
    | .custom => (210, 297)
    | .a4 => (210, 297)
  match orientation with
  | .portrait => wh
  | .landscape => (wh.2, wh.1)

/-- Result record of `calculateLayout`.  The box counts are integers
(`Math.floor` results, or the manual overrides); the margins are mm. -/
structure Layout where
  boxesPerRow : ℤ
  boxesPerColumn : ℤ
  boxesPerPage : ℤ
  horizontalMargin : ℚ
  verticalMargin : ℚ
deriving DecidableEq

/-- Truthiness of an optional JS number holding a count. -/
def truthyNat : Option ℕ → Bool
  | none => false
  | some n => n ≠ 0

/--
`calculateLayout` (source lines 1332–1367).  `boxSpacing` and `rowSpacing`
go through the chain `options.rowSpacing || options.boxSpacing || 10`;
the footer reserves a 30&nbsp;mm band only when `showFooter` is enabled.
With both manual overrides truthy, the counts are taken verbatim and only
the vertical margin is clamped (`Math.max(5, …)`); otherwise counts are
floored from the available space.
-/
def calculateLayout (options : GenerationOptions) : Layout :=
  let pageDims := getPageDimensions options.pageSize options.orientation
  let boxSpacing := orDefault options.boxSpacing 10
  let rowSpacing := orDefault options.rowSpacing boxSpacing
  let footerHeight : ℚ := if options.showFooter then 30 else 0
  let availableHeight := pageDims.2 - footerHeight
  if truthyNat options.boxesPerRow ∧ truthyNat options.boxesPerColumn then
    let r : ℕ := options.boxesPerRow.getD 0
    let c : ℕ := options.boxesPerColumn.getD 0
    let totalContentHeight := (c : ℚ) * options.boxHeight + ((c : ℚ) - 1) * rowSpacing
    { boxesPerRow := r
      boxesPerColumn := c
      boxesPerPage := (r : ℤ) * (c : ℤ)
      horizontalMargin :=
        (pageDims.1 - ((r : ℚ) * options.boxWidth + ((r : ℚ) - 1) * boxSpacing)) / 2
      verticalMargin := max 5 ((availableHeight - totalContentHeight) / 2) }
  else
    let boxesPerRow : ℤ := ⌊(pageDims.1 - boxSpacing) / (options.boxWidth + boxSpacing)⌋
    let boxesPerColumn : ℤ := ⌊(availableHeight - 10) / (options.boxHeight + rowSpacing)⌋
    let totalContentHeight :=
      (boxesPerColumn : ℚ) * options.boxHeight + ((boxesPerColumn : ℚ) - 1) * rowSpacing
    { boxesPerRow := boxesPerRow
      boxesPerColumn := boxesPerColumn
      boxesPerPage := boxesPerRow * boxesPerColumn
      horizontalMargin :=
        (pageDims.1 - ((boxesPerRow : ℚ) * options.boxWidth
          + ((boxesPerRow : ℚ) - 1) * boxSpacing)) / 2
      verticalMargin := max 5 ((availableHeight - totalContentHeight) / 2) }

/--
One input record, reduced to the fields the engine reads.  `countField`
models the JS value `row['Count'] || row.count`:
`none` = the field is absent or falsy, `some none` = present but
unparseable (`Number(…)` gives `NaN`), `some (some q)` = numeric `q`.
-/
structure ExcelRow where
  countField : Option (Option ℚ)
  serialNumber : Option String
  qrCodeText : Option String
deriving DecidableEq

/-- `Number(row['Count'] || row.count || 0)`: an absent/falsy field becomes
`0`; an unparseable one is `NaN` (modelled `none`). -/
def rowCount (row : ExcelRow) : Option ℚ :=
  match row.countField with
  | none => some 0
  | some v => v

/-- JS `count === 1` where `count` may be `NaN` (`none`): `NaN` equals
nothing. -/
def jsEqOne : Option ℚ → Bool
  | some q => q = 1
  | none => false

/-- JS `a < b` where either side may be `NaN` (`none`): any comparison with
`NaN` is false. -/
def jsLt : Option ℚ → Option ℚ → Bool
  | some a, some b => a < b
  | _, _ => false

/-- The loop's reset test at one row:
`previousCount !== null && (count === 1 || count < previousCount)`. -/
def isResetAt (previousCount : Option (Option ℚ)) (row : ExcelRow) : Bool :=
  match previousCount with
  | some prev => jsEqOne (rowCount row) || jsLt (rowCount row) prev
  | none => false

/-- The reset test between two concrete consecutive rows (the loop applies
it with `previousCount` holding the count of the preceding row `a`). -/
def resetAfter (a b : ExcelRow) : Bool :=
  jsEqOne (rowCount b) || jsLt (rowCount b) (rowCount a)

/-- Loop body of `detectSets` (source lines 1089–1117), with the mutable
`currentSet` / `previousCount` / `sets` state passed explicitly. -/
def detectSetsGo : List ExcelRow → List ExcelRow → Option (Option ℚ) →
    List (List ExcelRow) → List (List ExcelRow)
  | [], currentSet, _, sets =>
      if currentSet.isEmpty then sets else sets ++ [currentSet]
  | row :: rest, currentSet, previousCount, sets =>
      if isResetAt previousCount row && !currentSet.isEmpty then
        detectSetsGo rest [row] (some (rowCount row)) (sets ++ [currentSet])
      else
        detectSetsGo rest (currentSet ++ [row]) (some (rowCount row)) sets

/-- `detectSets`: partition the rows into contiguous sets, starting a new
set when the count resets to 1 or drops below the previous count; if no
set was produced, the whole input is one set. -/
def detectSets (data : List ExcelRow) : List (List ExcelRow) :=
  let sets := detectSetsGo data [] none []
  if sets.isEmpty then [data] else sets

/-- The effective per-row repeat count of `generatePDF`:
`opts.useQuantityRepeat && opts.quantityRepeat ? opts.quantityRepeat : 1`. -/
def repeatCount (opts : GenerationOptions) : ℕ :=
  if opts.useQuantityRepeat then
    match opts.quantityRepeat with
    | some q => if q = 0 then 1 else q
    | none => 1
  else 1

/-- `Math.ceil(n / k)` on naturals (exact for `0 < k`). -/
def ceilDiv (n k : ℕ) : ℕ := (n + k - 1) / k

/-- One output unit of the pagination loop: a source row bound to a page
slot and an absolute top-left position. -/
structure PlacedBox where
  setIndex : ℕ
  boxIndex : ℕ
  dataIndex : ℕ
  rowData : ExcelRow
  col : ℕ
  rowNum : ℕ
  x : ℚ
  y : ℚ
deriving DecidableEq

/-- A row whose every field is absent, used for the (never reached in the
proved theorems) out-of-bounds array read `setData[dataIndex]`. -/
def emptyRow : ExcelRow := ⟨none, none, none⟩

/--
The boxes `generatePDF` places on page `pageNum` of one set (source lines
1230–1260): box indices run over `[pageNum*k, min(pageNum*k + k, n*r))`,
`dataIndex = ⌊boxIndex / r⌋`, and the grid position of a box is derived
from its page-local index.
-/
def boxesOnPage (setIdx : ℕ) (setData : List ExcelRow) (r k kRow : ℕ)
    (hMargin vMargin boxWidth boxHeight boxSpacing rowSpacing : ℚ)
    (pageNum : ℕ) : List PlacedBox :=
  let totalBoxes := setData.length * r
  let startBoxIndex := pageNum * k
  let endBoxIndex := min (startBoxIndex + k) totalBoxes
  (List.range (endBoxIndex - startBoxIndex)).map (fun j =>
    let boxIndex := startBoxIndex + j
    let dataIndex := boxIndex / r
    { setIndex := setIdx
      boxIndex := boxIndex
      dataIndex := dataIndex
      rowData := setData.getD dataIndex emptyRow
      col := j % kRow
      rowNum := j / kRow
      x := hMargin + (j % kRow : ℕ) * (boxWidth + boxSpacing)
      y := vMargin + (j / kRow : ℕ) * (boxHeight + rowSpacing) })

/-- The pages `generatePDF` emits for one set:
`numPagesForSet = Math.ceil(setData.length * repeatCount / boxesPerPage)`
pages, in order. -/
def pagesForSet (setIdx : ℕ) (setData : List ExcelRow) (r k kRow : ℕ)
    (hMargin vMargin boxWidth boxHeight boxSpacing rowSpacing : ℚ) :
    List (List PlacedBox) :=
  (List.range (ceilDiv (setData.length * r) k)).map
    (boxesOnPage setIdx setData r k kRow hMargin vMargin boxWidth boxHeight
      boxSpacing rowSpacing)

/--
The page/box stream of `generatePDF` (source lines 1214–1304): detect the
sets, compute the layout once, then emit each set's pages in set order.
Box counts are taken through `Int.toNat`; this is faithful whenever
`boxesPerPage ≥ 1` (every theorem below assumes so).  When
`boxesPerPage ≤ 0` the JS loop never terminates (see the C7 analysis), so
no theorem is stated about that regime.
-/
def generatePDFPages (data : List ExcelRow) (options : GenerationOptions) :
    List (List PlacedBox) :=
  let sets := detectSets data
  let layout := calculateLayout options
  let boxSpacing := orDefault options.boxSpacing 10
  let rowSpacing := orDefault options.rowSpacing boxSpacing
  let r := repeatCount options
  (List.range sets.length).flatMap (fun s =>
    pagesForSet s (sets.getD s []) r layout.boxesPerPage.toNat
      layout.boxesPerRow.toNat layout.horizontalMargin layout.verticalMargin
      options.boxWidth options.boxHeight boxSpacing rowSpacing)

/-- What one box's rendering step leaves in the document: the border
rectangle, the optional outside count label, the serial text, and the QR
image when the data URL is truthy. -/
structure RenderedBox where
  hasBorder : Bool
  hasCountLabel : Bool
  serialText : String
  image : Option String
deriving DecidableEq

/-- JS `a || b` on an optional string: absent or empty falls back. -/
def strOr (o : Option String) (d : String) : String :=
  match o with
  | some s => if s = "" then d else s
  | none => d

/--
The continuation attached to `QRCode.toDataURL(qrText, …)` for one box
(source lines 1254–1297), with the encoder abstracted as a fallible
function.  The drawing happens only in the resolved branch: when the
encoder fails the promise rejects and nothing of this box is drawn — the
error propagates (there is no `catch` on this chain in the source).
-/
def renderBox (encode : String → Except Unit String)
    (opts : GenerationOptions) (b : PlacedBox) : Except Unit RenderedBox :=
  let serial := strOr b.rowData.serialNumber ("unknown-" ++ toString b.dataIndex)
  let qrText := strOr b.rowData.qrCodeText serial
  match encode qrText with
  | .error e => .error e
  | .ok dataUrl =>
      .ok { hasBorder := true
            hasCountLabel := opts.countOutsideBox
            serialText := serial
            image := if dataUrl = "" then none else some dataUrl }

/--
The rendering pass of `generatePDF`: every page's boxes are rendered and
the page's promises awaited together (`await Promise.all(promises)`); a
single rejated promise rejects the whole `generatePDF` call, so the run
aborts with the first encoder failure.
-/
def generatePDFRender (data : List ExcelRow) (options : GenerationOptions)
    (encode : String → Except Unit String) :
    Except Unit (List (List RenderedBox)) :=
  (generatePDFPages data options).mapM (fun page =>
    page.mapM (renderBox encode options))

/-! ### Concrete option sets used by the theorems below -/

/-- Scenario A options: A4 portrait, 50×30 box, 10 mm spacing, footer off. -/
def optsA : GenerationOptions := { defaultOptions with showFooter := false }

/-- Options with an explicit zero `serialToBoxGap`. -/
def optsZeroGap : GenerationOptions := { defaultOptions with serialToBoxGap := 0 }

/-- Manual overrides whose 10-box rows overflow the page width. -/
def optsOverflow : GenerationOptions :=
  { defaultOptions with boxesPerRow := some 10, boxesPerColumn := some 1 }

/-- Degenerate options: the box is larger than the page. -/
def optsDegenerate : GenerationOptions :=
  { defaultOptions with boxWidth := 300, boxHeight := 400 }

/-- Options supplying an explicit QR width of `0` and height of `7`. -/
def optsZeroQrW : GenerationOptions :=
  { defaultOptions with qrCodeWidth := some 0, qrCodeHeight := some 7 }


/--
C5 counterexample: the claim says `calculateContentPositions` returns
`serialX = serialToBoxGap`, but with an explicit `serialToBoxGap = 0` the
JS falsy-fallback `opts.serialToBoxGap || 3.1` returns the default `3.1`
instead, so the equation fails at this input.
-/
theorem c5_counterexample :
    (calculateContentPositions optsZeroGap).serialX ≠ optsZeroGap.serialToBoxGap ∧
    (calculateContentPositions optsZeroGap).serialX = 31/10 := by
  norm_num [calculateContentPositions, optsZeroGap, defaultOptions, orDefault]

/--
C5 (amended): whenever the three gap parameters are nonzero (a zero or
absent gap falls back to its default — the correction the counterexample
forces), `calculateContentPositions` returns `serialX = serialToBoxGap`,
`qrX = serialX + serialToQrGap`, and
`totalContentWidth = serialX + serialToQrGap + codeWidth + qrToBoxGap`;
`isValidLayout` is false iff `totalContentWidth > boxWidth`; the function
is total (never throws); and `isValidLayout` is monotone in the computed
code width: with the gaps and the box width fixed, increasing the code
width never turns an invalid layout valid.
-/
theorem c5_content_positions (o : GenerationOptions)
    (h1 : o.serialToBoxGap ≠ 0) (h2 : o.serialToQrGap ≠ 0) (h3 : o.qrToBoxGap ≠ 0) :
    (calculateContentPositions o).serialX = o.serialToBoxGap ∧
    (calculateContentPositions o).qrX = o.serialToBoxGap + o.serialToQrGap ∧
    (calculateContentPositions o).totalContentWidth =
      (calculateContentPositions o).serialX + o.serialToQrGap
        + (calculateContentPositions o).qrWidth + o.qrToBoxGap ∧
    ((calculateContentPositions o).isValidLayout = false ↔
      o.boxWidth < (calculateContentPositions o).totalContentWidth) ∧
    (∀ o2 : GenerationOptions, o2.serialToBoxGap = o.serialToBoxGap →
      o2.serialToQrGap = o.serialToQrGap → o2.qrToBoxGap = o.qrToBoxGap →
      o2.boxWidth = o.boxWidth →
      (calculateContentPositions o).qrWidth ≤ (calculateContentPositions o2).qrWidth →
      (calculateContentPositions o).isValidLayout = false →
      (calculateContentPositions o2).isValidLayout = false) := by
  have e : ∀ o' : GenerationOptions, o'.serialToBoxGap ≠ 0 → o'.serialToQrGap ≠ 0 →
      o'.qrToBoxGap ≠ 0 →
      (calculateContentPositions o').serialX = o'.serialToBoxGap ∧
      (calculateContentPositions o').qrX = o'.serialToBoxGap + o'.serialToQrGap ∧
      (calculateContentPositions o').totalContentWidth = o'.serialToBoxGap + o'.serialToQrGap
        + (calculateContentPositions o').qrWidth + o'.qrToBoxGap := by
    intro o' g1 g2 g3
    unfold calculateContentPositions orDefault
    simp only [if_neg g1, if_neg g2, if_neg g3]
    exact ⟨trivial, trivial, trivial⟩
  obtain ⟨e1, e2, e3⟩ := e o h1 h2 h3
  refine ⟨e1, e2, by rw [e3, e1], ?_, ?_⟩
  · constructor
    · intro hf
      have : (calculateContentPositions o).isValidLayout =
          decide ((calculateContentPositions o).totalContentWidth ≤ o.boxWidth) := by
        unfold calculateContentPositions
        rfl
      rw [this] at hf
      simpa [not_le] using hf
    · intro hlt
      have : (calculateContentPositions o).isValidLayout =
          decide ((calculateContentPositions o).totalContentWidth ≤ o.boxWidth) := by
        unfold calculateContentPositions
        rfl
      rw [this]
      simpa [not_le] using hlt
  · intro o2 q1 q2 q3 q4 hle hf
    have h1' : o2.serialToBoxGap ≠ 0 := by rw [q1]; exact h1
    have h2' : o2.serialToQrGap ≠ 0 := by rw [q2]; exact h2
    have h3' : o2.qrToBoxGap ≠ 0 := by rw [q3]; exact h3
    obtain ⟨f1, f2, f3⟩ := e o2 h1' h2' h3'
    have d1 : (calculateContentPositions o).isValidLayout =
        decide ((calculateContentPositions o).totalContentWidth ≤ o.boxWidth) := by
      unfold calculateContentPositions; rfl
    have d2 : (calculateContentPositions o2).isValidLayout =
        decide ((calculateContentPositions o2).totalContentWidth ≤ o2.boxWidth) := by
      unfold calculateContentPositions; rfl
    rw [d1] at hf
    rw [d2]
    simp only [decide_eq_false_iff_not, not_le] at hf ⊢
    rw [f3, q1, q2, q3, q4]
    rw [e3] at hf
    linarith


/--
C10: `calculateContentPositions` honours the explicit
`qrCodeWidth`/`qrCodeHeight` only when both are present and nonzero; if
either is absent or `0`, both code dimensions silently fall back to
`boxHeight × qrCodeSize` — an explicitly supplied `0` is ignored rather
than honoured or rejected.
-/
theorem c10_qr_dims_fallback (o : GenerationOptions) :
    (∀ w h, o.qrCodeWidth = some w → o.qrCodeHeight = some h → w ≠ 0 → h ≠ 0 →
      (calculateContentPositions o).qrWidth = w ∧
      (calculateContentPositions o).qrHeight = h) ∧
    ((o.qrCodeWidth = none ∨ o.qrCodeWidth = some 0 ∨
        o.qrCodeHeight = none ∨ o.qrCodeHeight = some 0) →
      (calculateContentPositions o).qrWidth = o.boxHeight * o.qrCodeSize ∧
      (calculateContentPositions o).qrHeight = o.boxHeight * o.qrCodeSize) := by
  constructor
  · intro w h hw hh hw0 hh0
    unfold calculateContentPositions
    rw [hw, hh]
    simp [hw0, hh0]
  · intro hcase
    unfold calculateContentPositions
    rcases hcase with h | h | h | h <;> rw [h] <;>
      cases hx : o.qrCodeWidth <;> cases hy : o.qrCodeHeight <;> simp_all

/-- C10 witness: an explicit width `0` (height `7`) is ignored and both
dimensions come out as the fallback `30 × 0.6 = 18`. -/
theorem c10_qr_dims_fallback_witness :
    optsZeroQrW.qrCodeWidth = some 0 ∧
    (calculateContentPositions optsZeroQrW).qrWidth = optsZeroQrW.boxHeight * optsZeroQrW.qrCodeSize ∧
    (calculateContentPositions optsZeroQrW).qrWidth = 18 :=
  ⟨rfl,
   ((c10_qr_dims_fallback optsZeroQrW).2 (Or.inr (Or.inl rfl))).1,
   by norm_num [calculateContentPositions, optsZeroQrW, defaultOptions, orDefault]⟩

/--
C9 counterexample: the claim says both margins are clamped to a minimum
of 5 so no offset is negative, but with manual overrides
`boxesPerRow = 10`, `boxesPerColumn = 1` on default 50 mm boxes and an A4
page the source's unclamped horizontal margin is `(210 − 590)/2 = −190`.
-/
theorem c9_counterexample :
    (calculateLayout optsOverflow).horizontalMargin = -190 ∧
    (calculateLayout optsOverflow).horizontalMargin < 5 := by
  norm_num [calculateLayout, optsOverflow, defaultOptions, getPageDimensions, orDefault, truthyNat]

/--
C9 (amended): with both manual overrides present and nonzero,
`calculateLayout` returns `boxesPerPage = boxesPerRow × boxesPerColumn`;
the vertical margin centres the block against the page height minus the
footer band and is clamped to a minimum of 5, while the horizontal margin
centres against the page width and is not clamped — it goes negative when
the configured block overflows the page (the correction the
counterexample forces).
-/
theorem c9_manual_overrides (o : GenerationOptions) (r c : ℕ)
    (hr : o.boxesPerRow = some r) (hc : o.boxesPerColumn = some c)
    (hr0 : r ≠ 0) (hc0 : c ≠ 0) :
    (calculateLayout o).boxesPerRow = r ∧
    (calculateLayout o).boxesPerColumn = c ∧
    (calculateLayout o).boxesPerPage = (r : ℤ) * (c : ℤ) ∧
    (calculateLayout o).horizontalMargin =
      ((getPageDimensions o.pageSize o.orientation).1 -
        ((r : ℚ) * o.boxWidth + ((r : ℚ) - 1) * orDefault o.boxSpacing 10)) / 2 ∧
    (calculateLayout o).verticalMargin =
      max 5 ((((getPageDimensions o.pageSize o.orientation).2 -
        (if o.showFooter then 30 else 0)) -
        ((c : ℚ) * o.boxHeight + ((c : ℚ) - 1) *
          orDefault o.rowSpacing (orDefault o.boxSpacing 10))) / 2) := by
  unfold calculateLayout
  rw [hr, hc]
  simp [truthyNat, hr0, hc0]

/-- C9 witness: the amended theorem applied to overrides `2 × 3`. -/
theorem c9_manual_overrides_witness :
    (calculateLayout { defaultOptions with boxesPerRow := some 2, boxesPerColumn := some 3 }).boxesPerPage = (2 : ℤ) * 3 :=
  (c9_manual_overrides { defaultOptions with boxesPerRow := some 2, boxesPerColumn := some 3 }
    2 3 rfl rfl (by decide) (by decide)).2.2.1

/--
C7 evaluated at the failing input: with a 300×400 mm box on an A4 page
`calculateLayout` yields `boxesPerRow = boxesPerColumn = boxesPerPage = 0`.
The claim says the pagination driver detects `boxesPerPage ≤ 0` and aborts
with a fatal `LayoutError` before emitting any page; the source
`generatePDF` has no such check — it computes
`numPagesForSet = Math.ceil(totalBoxes / 0) = Infinity` and its page loop
never terminates, so the claim describes the spec's stated intent, not
the code (code bug).
-/
theorem c7_degenerate_capacity_zero :
    (calculateLayout optsDegenerate).boxesPerRow = 0 ∧
    (calculateLayout optsDegenerate).boxesPerColumn = 0 ∧
    (calculateLayout optsDegenerate).boxesPerPage = 0 := by
  norm_num [calculateLayout, optsDegenerate, defaultOptions, getPageDimensions, orDefault, truthyNat]


lemma ceilDiv_zero {k : ℕ} (hk : 0 < k) : ceilDiv 0 k = 0 := by
  unfold ceilDiv
  exact Nat.div_eq_of_lt (by omega)

lemma ceilDiv_eq_zero {T k : ℕ} (hk : 0 < k) (h : ceilDiv T k = 0) : T = 0 := by
  unfold ceilDiv at h
  rcases Nat.lt_or_ge T 1 with h1 | h1
  · omega
  · exfalso
    have : 1 ≤ (T + k - 1) / k := by
      rw [Nat.le_div_iff_mul_le hk]
      omega
    omega

lemma ceilDiv_mul_self {k : ℕ} (hk : 0 < k) (m : ℕ) : ceilDiv (m * k) k = m := by
  unfold ceilDiv
  have h1 : m * k + k - 1 = (k - 1) + k * m := by
    have : k * m = m * k := by ring
    omega
  rw [h1, Nat.add_mul_div_left _ _ hk, Nat.div_eq_of_lt (by omega)]
  omega

lemma lt_of_ceilDiv_succ {T k P : ℕ} (hk : 0 < k) (h : ceilDiv T k = P + 1) :
    P * k < T := by
  unfold ceilDiv at h
  have hd := Nat.div_add_mod (T + k - 1) k
  have hm := Nat.mod_lt (T + k - 1) hk
  rw [h] at hd
  have : k * (P + 1) = P * k + k := by ring
  omega

lemma le_ceilDiv_mul {T k : ℕ} (hk : 0 < k) : T ≤ ceilDiv T k * k := by
  unfold ceilDiv
  have hd := Nat.div_add_mod (T + k - 1) k
  have hm := Nat.mod_lt (T + k - 1) hk
  have : k * ((T + k - 1) / k) = ((T + k - 1) / k) * k := by ring
  omega

lemma chunk_cover {k : ℕ} (hk : 0 < k) :
    ∀ P T, ceilDiv T k = P →
      (List.range P).flatMap
        (fun p => (List.range (min (p * k + k) T - p * k)).map (fun j => p * k + j)) =
      List.range T := by
  intro P
  induction P with
  | zero =>
      intro T hT
      rw [ceilDiv_eq_zero hk hT]
      simp
  | succ P ih =>
      intro T hT
      have hlow : P * k < T := lt_of_ceilDiv_succ hk hT
      have hhigh : T ≤ (P + 1) * k := by
        have := le_ceilDiv_mul (T := T) hk
        rw [hT] at this
        exact this
      rw [List.range_succ, List.flatMap_append]
      have hfull : ∀ p ∈ List.range P,
          (List.range (min (p * k + k) T - p * k)).map (fun j => p * k + j) =
          (List.range (min (p * k + k) (P * k) - p * k)).map (fun j => p * k + j) := by
        intro p hp
        rw [List.mem_range] at hp
        have h1 : p * k + k ≤ P * k := by
          have h2 : (p + 1) * k ≤ P * k := Nat.mul_le_mul_right k hp
          have h3 : (p + 1) * k = p * k + k := by ring
          omega
        rw [min_eq_left (by omega), min_eq_left (by omega)]
      rw [List.flatMap_congr hfull, ih (P * k) (ceilDiv_mul_self hk P)]
      have hPk : (P + 1) * k = P * k + k := by ring
      have hmin : min (P * k + k) T = T := min_eq_right (by omega)
      simp only [List.flatMap_cons, List.flatMap_nil, List.append_nil, hmin]
      conv_rhs => rw [show T = P * k + (T - P * k) by omega]
      rw [List.range_add]


lemma range_div_eq_flatMap_replicate (r : ℕ) (hr : 0 < r) :
    ∀ n : ℕ, (List.range (n * r)).map (fun i => i / r) =
      (List.range n).flatMap (fun d => List.replicate r d) := by
  intro n
  induction n with
  | zero => simp
  | succ n ih =>
      have hmul : (n + 1) * r = n * r + r := by ring
      rw [hmul, List.range_add, List.map_append, ih, List.range_succ,
        List.flatMap_append, List.map_map]
      congr 1
      have hc : ∀ j ∈ List.range r, ((fun i => i / r) ∘ (fun j => n * r + j)) j = n := by
        intro j hj
        rw [List.mem_range] at hj
        simp only [Function.comp]
        have h1 : n * r + j = r * n + j := by ring
        rw [h1, Nat.mul_add_div hr, Nat.div_eq_of_lt hj]
        omega
      rw [List.map_congr_left hc]
      simp [List.flatMap_cons]

lemma map_getD_range {α : Type} (dflt : α) :
    ∀ l : List α, (List.range l.length).map (fun i => l.getD i dflt) = l := by
  intro l
  induction l with
  | nil => simp
  | cons a tl ih =>
      rw [List.length_cons, List.range_succ_eq_map, List.map_cons, List.map_map]
      have hc : ∀ i ∈ List.range tl.length,
          ((fun i => (a :: tl).getD i dflt) ∘ Nat.succ) i = tl.getD i dflt := by
        intro i hi
        simp [Function.comp]
      rw [List.map_congr_left hc, ih]
      simp

lemma flatMap_getD_range {α β : Type} (dflt : α) (g : α → List β) (l : List α) :
    (List.range l.length).flatMap (fun i => g (l.getD i dflt)) = l.flatMap g := by
  have h1 : (List.range l.length).flatMap (fun i => g (l.getD i dflt)) =
      ((List.range l.length).map (fun i => l.getD i dflt)).flatMap g := by
    rw [List.flatMap_map]
  rw [h1, map_getD_range]

lemma flatten_flatMap {α β : Type} (l : List α) (f : α → List (List β)) :
    (l.flatMap f).flatten = l.flatMap (fun a => (f a).flatten) := by
  simp only [List.flatten_eq_flatMap, List.flatMap_assoc]


/-- The box at global in-set index `i`, as placed by the pagination loop
(page `i / k`, page-local index `i % k`). -/
def flatBox (setIdx : ℕ) (sd : List ExcelRow) (r k kRow : ℕ)
    (hM vM bw bh sp rsp : ℚ) (i : ℕ) : PlacedBox :=
  { setIndex := setIdx
    boxIndex := i
    dataIndex := i / r
    rowData := sd.getD (i / r) emptyRow
    col := (i % k) % kRow
    rowNum := (i % k) / kRow
    x := hM + ((i % k) % kRow : ℕ) * (bw + sp)
    y := vM + ((i % k) / kRow : ℕ) * (bh + rsp) }

lemma pagesForSet_flatten (setIdx : ℕ) (sd : List ExcelRow) (r k kRow : ℕ)
    (hM vM bw bh sp rsp : ℚ) (hk : 0 < k) :
    (pagesForSet setIdx sd r k kRow hM vM bw bh sp rsp).flatten =
    (List.range (sd.length * r)).map (flatBox setIdx sd r k kRow hM vM bw bh sp rsp) := by
  unfold pagesForSet boxesOnPage
  rw [← List.flatMap_def]
  have hpage : ∀ p ∈ List.range (ceilDiv (sd.length * r) k),
      (List.range (min (p * k + k) (sd.length * r) - p * k)).map (fun j =>
        ({ setIndex := setIdx
           boxIndex := p * k + j
           dataIndex := (p * k + j) / r
           rowData := sd.getD ((p * k + j) / r) emptyRow
           col := j % kRow
           rowNum := j / kRow
           x := hM + (j % kRow : ℕ) * (bw + sp)
           y := vM + (j / kRow : ℕ) * (bh + rsp) } : PlacedBox)) =
      ((List.range (min (p * k + k) (sd.length * r) - p * k)).map (fun j => p * k + j)).map
        (flatBox setIdx sd r k kRow hM vM bw bh sp rsp) := by
    intro p hp
    rw [List.map_map]
    apply List.map_congr_left
    intro j hj
    rw [List.mem_range] at hj
    have hjk : j < k := by omega
    have hmod : (p * k + j) % k = j := by
      have hcomm : p * k + j = k * p + j := by ring
      rw [hcomm, Nat.mul_add_mod, Nat.mod_eq_of_lt hjk]
    simp only [Function.comp, flatBox, hmod]
  rw [List.flatMap_congr hpage]
  rw [show ((List.range (ceilDiv (sd.length * r) k)).flatMap (fun p =>
      ((List.range (min (p * k + k) (sd.length * r) - p * k)).map (fun j => p * k + j)).map
        (flatBox setIdx sd r k kRow hM vM bw bh sp rsp))) =
      ((List.range (ceilDiv (sd.length * r) k)).flatMap (fun p =>
      (List.range (min (p * k + k) (sd.length * r) - p * k)).map (fun j => p * k + j))).map
        (flatBox setIdx sd r k kRow hM vM bw bh sp rsp) from (List.map_flatMap _ _ _).symm]
  rw [chunk_cover hk _ _ rfl]


lemma repeatCount_pos (o : GenerationOptions) : 0 < repeatCount o := by
  unfold repeatCount
  split
  · split
    · split <;> omega
    · omega
  · omega

lemma generatePDFPages_eq (data : List ExcelRow) (o : GenerationOptions) :
    generatePDFPages data o =
    (List.range (detectSets data).length).flatMap (fun s =>
      pagesForSet s ((detectSets data).getD s []) (repeatCount o)
        (calculateLayout o).boxesPerPage.toNat (calculateLayout o).boxesPerRow.toNat
        (calculateLayout o).horizontalMargin (calculateLayout o).verticalMargin
        o.boxWidth o.boxHeight (orDefault o.boxSpacing 10)
        (orDefault o.rowSpacing (orDefault o.boxSpacing 10))) := rfl

lemma generatePDFPages_flatten_rowData (data : List ExcelRow) (o : GenerationOptions)
    (hk : 0 < (calculateLayout o).boxesPerPage) :
    ((generatePDFPages data o).flatten).map PlacedBox.rowData =
    (detectSets data).flatMap (fun s =>
      s.flatMap (fun row => List.replicate (repeatCount o) row)) := by
  have hkn : 0 < (calculateLayout o).boxesPerPage.toNat := by omega
  rw [generatePDFPages_eq, flatten_flatMap, List.map_flatMap]
  have h2 : ∀ s ∈ List.range (detectSets data).length,
      ((pagesForSet s ((detectSets data).getD s []) (repeatCount o)
        (calculateLayout o).boxesPerPage.toNat (calculateLayout o).boxesPerRow.toNat
        (calculateLayout o).horizontalMargin (calculateLayout o).verticalMargin
        o.boxWidth o.boxHeight (orDefault o.boxSpacing 10)
        (orDefault o.rowSpacing (orDefault o.boxSpacing 10))).flatten).map PlacedBox.rowData =
      ((detectSets data).getD s []).flatMap
        (fun row => List.replicate (repeatCount o) row) := by
    intro s _
    rw [pagesForSet_flatten _ _ _ _ _ _ _ _ _ _ _ hkn, List.map_map]
    have h4 : (PlacedBox.rowData ∘ flatBox s ((detectSets data).getD s []) (repeatCount o)
        (calculateLayout o).boxesPerPage.toNat (calculateLayout o).boxesPerRow.toNat
        (calculateLayout o).horizontalMargin (calculateLayout o).verticalMargin
        o.boxWidth o.boxHeight (orDefault o.boxSpacing 10)
        (orDefault o.rowSpacing (orDefault o.boxSpacing 10))) =
        (fun d => ((detectSets data).getD s []).getD d emptyRow) ∘ (fun i => i / repeatCount o) := rfl
    rw [h4, ← List.map_map, range_div_eq_flatMap_replicate (repeatCount o) (repeatCount_pos o),
      List.map_flatMap]
    simp only [List.map_replicate]
    exact flatMap_getD_range emptyRow (fun row => List.replicate (repeatCount o) row) _
  rw [List.flatMap_congr h2]
  exact flatMap_getD_range []
    (fun set => set.flatMap (fun row => List.replicate (repeatCount o) row)) (detectSets data)


/--
C1: for every input and options with `boxesPerPage ≥ 1`, the boxes
emitted by `generatePDF` across all pages, in page-then-box order, carry
exactly the concatenation of the detected sets with each row repeated
`repeatCount` consecutive times — no row skipped, none duplicated beyond
the repeat — and the box at global in-set index `i` draws the set's row
`⌊i / repeatCount⌋`.
-/
theorem c1_expanded_sequence (data : List ExcelRow) (o : GenerationOptions)
    (hk : 0 < (calculateLayout o).boxesPerPage) :
    ((generatePDFPages data o).flatten).map PlacedBox.rowData =
      (detectSets data).flatMap (fun s =>
        s.flatMap (fun row => List.replicate (repeatCount o) row)) ∧
    ∀ b ∈ (generatePDFPages data o).flatten,
      b.dataIndex = b.boxIndex / repeatCount o := by
  refine ⟨generatePDFPages_flatten_rowData data o hk, ?_⟩
  have hkn : 0 < (calculateLayout o).boxesPerPage.toNat := by omega
  intro b hb
  rw [generatePDFPages_eq, flatten_flatMap] at hb
  rw [List.mem_flatMap] at hb
  obtain ⟨s, _, hbs⟩ := hb
  rw [pagesForSet_flatten _ _ _ _ _ _ _ _ _ _ _ hkn, List.mem_map] at hbs
  obtain ⟨i, _, hbi⟩ := hbs
  subst hbi
  rfl

def rowA : ExcelRow := ⟨some (some 1), some "A", none⟩
def rowB : ExcelRow := ⟨some (some 2), some "B", none⟩
def rowC : ExcelRow := ⟨some (some 3), some "C", none⟩
def rowD : ExcelRow := ⟨some (some 4), some "D", none⟩

def dataD : List ExcelRow := [rowA, rowB, rowC, rowD]

def optsD : GenerationOptions :=
  { defaultOptions with
      showFooter := false
      useQuantityRepeat := true
      quantityRepeat := some 3 }

lemma optsD_boxesPerPage : (calculateLayout optsD).boxesPerPage = 21 := by
  norm_num [calculateLayout, optsD, defaultOptions, getPageDimensions, orDefault, truthyNat]

/-- C1 witness (scenario D): 4 rows with quantity-repeat 3 produce 12
boxes mapping boxes 0–2 to row 0, 3–5 to row 1, and so on. -/
theorem c1_expanded_sequence_witness :
    ((generatePDFPages dataD optsD).flatten).map PlacedBox.rowData =
      [rowA, rowA, rowA, rowB, rowB, rowB, rowC, rowC, rowC, rowD, rowD, rowD] := by
  rw [(c1_expanded_sequence dataD optsD (by rw [optsD_boxesPerPage]; omega)).1]
  decide


lemma ceilDiv_cast_eq_ceil {k : ℕ} (hk : 0 < k) (N : ℕ) :
    ((ceilDiv N k : ℕ) : ℤ) = ⌈(N : ℚ) / (k : ℚ)⌉ := by
  have hkQ : (0 : ℚ) < (k : ℚ) := by exact_mod_cast hk
  symm
  rw [Int.ceil_eq_iff]
  constructor
  · rw [lt_div_iff₀ hkQ]
    push_cast
    rcases Nat.eq_zero_or_pos (ceilDiv N k) with h0 | hpos
    · have hN : N = 0 := ceilDiv_eq_zero hk h0
      rw [h0, hN]
      push_cast
      linarith
    · obtain ⟨P, hP⟩ : ∃ P, ceilDiv N k = P + 1 := ⟨ceilDiv N k - 1, by omega⟩
      have hlt : P * k < N := lt_of_ceilDiv_succ hk hP
      have hltQ : ((P * k : ℕ) : ℚ) < ((N : ℕ) : ℚ) := by exact_mod_cast hlt
      push_cast at hltQ
      rw [hP]
      push_cast
      ring_nf
      ring_nf at hltQ
      linarith
  · rw [div_le_iff₀ hkQ]
    push_cast
    have hle : N ≤ ceilDiv N k * k := le_ceilDiv_mul hk
    have hleQ : ((N : ℕ) : ℚ) ≤ ((ceilDiv N k * k : ℕ) : ℚ) := by exact_mod_cast hle
    push_cast at hleQ
    linarith

/--
C2: when the input forms a single set, the repeat count is 1, and
`boxesPerPage = k ≥ 1`, `generatePDF` produces exactly `⌈N / k⌉` pages
(stated both with the rational ceiling and with the source's
`Math.ceil` translation `ceilDiv`), and for nonempty input the last page
holds exactly `N − (⌈N/k⌉ − 1)·k` boxes.
-/
theorem c2_page_count (data : List ExcelRow) (o : GenerationOptions)
    (hsingle : detectSets data = [data]) (hrep : repeatCount o = 1)
    (hk : 0 < (calculateLayout o).boxesPerPage) :
    ((generatePDFPages data o).length : ℤ) =
      ⌈(data.length : ℚ) / (((calculateLayout o).boxesPerPage : ℤ) : ℚ)⌉ ∧
    (generatePDFPages data o).length =
      ceilDiv data.length (calculateLayout o).boxesPerPage.toNat ∧
    (0 < data.length →
      (generatePDFPages data o).getLast?.map List.length =
        some (data.length -
          (ceilDiv data.length (calculateLayout o).boxesPerPage.toNat - 1) *
            (calculateLayout o).boxesPerPage.toNat)) := by
  have hkn : 0 < (calculateLayout o).boxesPerPage.toNat := by omega
  have hcast : (((calculateLayout o).boxesPerPage.toNat : ℕ) : ℚ) =
      (((calculateLayout o).boxesPerPage : ℤ) : ℚ) := by
    rw [← Int.cast_natCast, Int.toNat_of_nonneg (by omega)]
  have hpages : generatePDFPages data o =
      pagesForSet 0 data 1 (calculateLayout o).boxesPerPage.toNat
        (calculateLayout o).boxesPerRow.toNat
        (calculateLayout o).horizontalMargin (calculateLayout o).verticalMargin
        o.boxWidth o.boxHeight (orDefault o.boxSpacing 10)
        (orDefault o.rowSpacing (orDefault o.boxSpacing 10)) := by
    rw [generatePDFPages_eq, hsingle, hrep]
    rw [show ([data] : List (List ExcelRow)).length = 1 from rfl,
      show List.range 1 = [0] from rfl]
    simp
  have hlen : (generatePDFPages data o).length =
      ceilDiv data.length (calculateLayout o).boxesPerPage.toNat := by
    rw [hpages]
    unfold pagesForSet
    rw [List.length_map, List.length_range, Nat.mul_one]
  refine ⟨?_, hlen, ?_⟩
  · rw [hlen, ceilDiv_cast_eq_ceil hkn]
    rw [hcast]
  · intro hN
    obtain ⟨P, hP⟩ : ∃ P, ceilDiv data.length (calculateLayout o).boxesPerPage.toNat = P + 1 := by
      refine ⟨ceilDiv data.length (calculateLayout o).boxesPerPage.toNat - 1, ?_⟩
      have hne : ceilDiv data.length (calculateLayout o).boxesPerPage.toNat ≠ 0 := by
        intro h0
        exact absurd (ceilDiv_eq_zero hkn h0) (by omega)
      omega
    rw [hpages]
    unfold pagesForSet boxesOnPage
    rw [Nat.mul_one, hP, List.range_succ, List.map_append, List.map_singleton,
      List.getLast?_concat]
    simp only [Option.map_some']
    congr 1
    simp only [List.length_map, List.length_range]
    have hle : data.length ≤ (P + 1) * (calculateLayout o).boxesPerPage.toNat := by
      have := le_ceilDiv_mul (T := data.length) hkn
      rw [hP] at this
      exact this
    have hsp : (P + 1) * (calculateLayout o).boxesPerPage.toNat =
        P * (calculateLayout o).boxesPerPage.toNat +
          (calculateLayout o).boxesPerPage.toNat := by ring
    have hmin : min (P * (calculateLayout o).boxesPerPage.toNat +
          (calculateLayout o).boxesPerPage.toNat) data.length = data.length := by
      omega
    rw [hmin, Nat.add_sub_cancel]

def data47 : List ExcelRow := List.replicate 47 emptyRow

lemma optsA_boxesPerPage : (calculateLayout optsA).boxesPerPage = 21 := by
  norm_num [calculateLayout, optsA, defaultOptions, getPageDimensions, orDefault, truthyNat]

lemma optsA_boxesPerPage_toNat : (calculateLayout optsA).boxesPerPage.toNat = 21 := by
  rw [optsA_boxesPerPage]
  rfl

/-- C2 witness (scenario B): 47 rows with `boxesPerPage = 21` yield
exactly 3 pages with 5 boxes on the last page. -/
theorem c2_page_count_witness :
    (generatePDFPages data47 optsA).length = 3 ∧
    (generatePDFPages data47 optsA).getLast?.map List.length = some 5 := by
  have h := c2_page_count data47 optsA (by decide) rfl (by rw [optsA_boxesPerPage]; omega)
  constructor
  · rw [h.2.1, optsA_boxesPerPage_toNat]
    decide
  · have h3 := h.2.2 (by decide)
    rw [h3, optsA_boxesPerPage_toNat]
    decide


/--
C4: with `boxesPerPage ≥ 1`, no page of `generatePDF` mixes boxes of two
different sets; a box with in-set index 0 (each set's first box) is the
first box of its page and sits at column 0, row 0 — the top-left position
`(horizontalMargin, verticalMargin)` of a freshly started page — and every
nonempty detected set contributes such a box.
-/
theorem c4_sets_start_fresh_pages (data : List ExcelRow) (o : GenerationOptions)
    (hk : 0 < (calculateLayout o).boxesPerPage) :
    (∀ pg ∈ generatePDFPages data o, ∀ a ∈ pg, ∀ b ∈ pg, a.setIndex = b.setIndex) ∧
    (∀ pg ∈ generatePDFPages data o, ∀ a ∈ pg, a.boxIndex = 0 →
      pg.head? = some a ∧ a.col = 0 ∧ a.rowNum = 0 ∧
      a.x = (calculateLayout o).horizontalMargin ∧
      a.y = (calculateLayout o).verticalMargin) ∧
    (∀ s, s < (detectSets data).length → (detectSets data).getD s [] ≠ [] →
      ∃ pg ∈ generatePDFPages data o, ∃ a ∈ pg, a.setIndex = s ∧ a.boxIndex = 0) := by
  have hkn : 0 < (calculateLayout o).boxesPerPage.toNat := by omega
  refine ⟨?_, ?_, ?_⟩
  · intro pg hpg a ha b hb
    rw [generatePDFPages_eq, List.mem_flatMap] at hpg
    obtain ⟨s, hs, hpgs⟩ := hpg
    unfold pagesForSet at hpgs
    rw [List.mem_map] at hpgs
    obtain ⟨p, hpmem, hpg_eq⟩ := hpgs
    subst hpg_eq
    unfold boxesOnPage at ha hb
    rw [List.mem_map] at ha hb
    obtain ⟨j1, hj1, ha_eq⟩ := ha
    obtain ⟨j2, hj2, hb_eq⟩ := hb
    subst ha_eq
    subst hb_eq
    rfl
  · intro pg hpg a ha hbox
    rw [generatePDFPages_eq, List.mem_flatMap] at hpg
    obtain ⟨s, hs, hpgs⟩ := hpg
    unfold pagesForSet at hpgs
    rw [List.mem_map] at hpgs
    obtain ⟨p, hpmem, hpg_eq⟩ := hpgs
    subst hpg_eq
    unfold boxesOnPage at ha ⊢
    rw [List.mem_map] at ha
    obtain ⟨j, hj, ha_eq⟩ := ha
    rw [List.mem_range] at hj
    have hpj : p * (calculateLayout o).boxesPerPage.toNat + j = 0 := by
      rw [← ha_eq] at hbox
      exact hbox
    have hj0 : j = 0 := by omega
    subst hj0
    refine ⟨?_, ?_, ?_, ?_, ?_⟩
    · rw [List.head?_map, List.head?_range, if_neg (by omega)]
      rw [Option.map_some']
      rw [← ha_eq]
    · rw [← ha_eq]
      simp
    · rw [← ha_eq]
      simp
    · rw [← ha_eq]
      simp
    · rw [← ha_eq]
      simp
  · intro s hs hne
    have hlen : 0 < ((detectSets data).getD s []).length := by
      rcases Nat.eq_zero_or_pos ((detectSets data).getD s []).length with h0 | h
      · exact absurd (List.eq_nil_of_length_eq_zero h0) hne
      · exact h
    have hT : 0 < ((detectSets data).getD s []).length * repeatCount o :=
      Nat.mul_pos hlen (repeatCount_pos o)
    have hP : 0 < ceilDiv (((detectSets data).getD s []).length * repeatCount o)
        (calculateLayout o).boxesPerPage.toNat := by
      rcases Nat.eq_zero_or_pos (ceilDiv (((detectSets data).getD s []).length * repeatCount o)
          (calculateLayout o).boxesPerPage.toNat) with h0 | h
      · exact absurd (ceilDiv_eq_zero hkn h0) (by omega)
      · exact h
    rw [generatePDFPages_eq]
    refine ⟨boxesOnPage s ((detectSets data).getD s []) (repeatCount o)
        (calculateLayout o).boxesPerPage.toNat (calculateLayout o).boxesPerRow.toNat
        (calculateLayout o).horizontalMargin (calculateLayout o).verticalMargin
        o.boxWidth o.boxHeight (orDefault o.boxSpacing 10)
        (orDefault o.rowSpacing (orDefault o.boxSpacing 10)) 0, ?_, ?_⟩
    · rw [List.mem_flatMap]
      refine ⟨s, List.mem_range.mpr hs, ?_⟩
      unfold pagesForSet
      exact List.mem_map_of_mem _ (List.mem_range.mpr hP)
    · unfold boxesOnPage
      have h0mem : (0 : ℕ) ∈ List.range
          (min (0 * (calculateLayout o).boxesPerPage.toNat +
              (calculateLayout o).boxesPerPage.toNat)
            (((detectSets data).getD s []).length * repeatCount o) -
            0 * (calculateLayout o).boxesPerPage.toNat) :=
        List.mem_range.mpr (by omega)
      refine ⟨_, List.mem_map_of_mem _ h0mem, rfl, ?_⟩
      show 0 * (calculateLayout o).boxesPerPage.toNat + 0 = 0
      omega


lemma isResetAt_eq (a b : ExcelRow) :
    isResetAt (some (rowCount a)) b = resetAfter a b := rfl

lemma detectSetsGo_acc :
    ∀ (rows cur : List ExcelRow) (prev : Option (Option ℚ)) (sets : List (List ExcelRow)),
      detectSetsGo rows cur prev sets = sets ++ detectSetsGo rows cur prev [] := by
  intro rows
  induction rows with
  | nil =>
      intro cur prev sets
      simp only [detectSetsGo]
      cases h : cur.isEmpty <;> simp
  | cons row rest ih =>
      intro cur prev sets
      simp only [detectSetsGo]
      cases h : (isResetAt prev row && !cur.isEmpty)
      · simp only [Bool.false_eq_true, if_false]
        exact ih _ _ _
      · simp only [if_true]
        rw [ih _ _ (sets ++ [cur]), ih _ _ ([] ++ [cur])]
        simp [List.append_assoc]

lemma detectSetsGo_flatten :
    ∀ (rows cur : List ExcelRow) (prev : Option (Option ℚ)),
      (detectSetsGo rows cur prev []).flatten = cur ++ rows := by
  intro rows
  induction rows with
  | nil =>
      intro cur prev
      simp only [detectSetsGo]
      cases h : cur.isEmpty
      · simp
      · rw [List.isEmpty_iff] at h
        simp [h]
  | cons row rest ih =>
      intro cur prev
      simp only [detectSetsGo]
      cases h : (isResetAt prev row && !cur.isEmpty)
      · simp only [Bool.false_eq_true, if_false]
        rw [ih]
        simp
      · simp only [if_true]
        rw [detectSetsGo_acc, List.flatten_append, ih]
        simp

lemma detectSets_flatten (data : List ExcelRow) :
    (detectSets data).flatten = data := by
  unfold detectSets
  have hf := detectSetsGo_flatten data [] none
  rcases h : detectSetsGo data [] none [] with _ | ⟨s, rest⟩
  · simp
  · rw [h] at hf
    simpa using hf

lemma detectSetsGo_chain :
    ∀ (rows cur : List ExcelRow) (prev : Option (Option ℚ)),
      List.Chain' (fun a b => resetAfter a b = false) cur →
      (∀ a, cur.getLast? = some a → prev = some (rowCount a)) →
      ∀ s ∈ detectSetsGo rows cur prev [], List.Chain' (fun a b => resetAfter a b = false) s := by
  intro rows
  induction rows with
  | nil =>
      intro cur prev hcur _ s hsmem
      simp only [detectSetsGo] at hsmem
      cases h : cur.isEmpty
      · rw [h] at hsmem
        simp at hsmem
        rw [hsmem]
        exact hcur
      · rw [h] at hsmem
        simp at hsmem
  | cons row rest ih =>
      intro cur prev hcur hprev s hsmem
      simp only [detectSetsGo] at hsmem
      cases h : (isResetAt prev row && !cur.isEmpty)
      · rw [h] at hsmem
        simp only [Bool.false_eq_true, if_false] at hsmem
        have hne : List.Chain' (fun a b => resetAfter a b = false) (cur ++ [row]) := by
          rw [List.chain'_append]
          refine ⟨hcur, List.chain'_singleton row, ?_⟩
          intro x hx y hy
          simp only [List.head?_cons, Option.mem_def, Option.some.injEq] at hy
          subst hy
          rw [Bool.and_eq_false_iff] at h
          rcases h with h | h
          · rw [hprev x hx] at h
            rw [isResetAt_eq] at h
            exact h
          · have hc : cur = [] := by simpa using h
            rw [hc] at hx
            simp at hx
        refine ih _ _ hne ?_ s hsmem
        intro a ha
        rw [List.getLast?_concat] at ha
        rw [Option.some.injEq] at ha
        subst ha
        rfl
      · rw [h] at hsmem
        simp only [if_true] at hsmem
        rw [detectSetsGo_acc] at hsmem
        rw [List.mem_append] at hsmem
        rcases hsmem with hsmem | hsmem
        · simp at hsmem
          rw [hsmem]
          exact hcur
        · refine ih _ _ (List.chain'_singleton row) ?_ s hsmem
          intro a ha
          simp only [List.getLast?_singleton, Option.some.injEq] at ha
          subst ha
          rfl

lemma detectSetsGo_head :
    ∀ (rows cur : List ExcelRow) (prev : Option (Option ℚ)) (t : List ExcelRow),
      cur ≠ [] → (detectSetsGo rows cur prev []).head? = some t →
      t.head? = cur.head? := by
  intro rows
  induction rows with
  | nil =>
      intro cur prev t hne hhead
      simp only [detectSetsGo] at hhead
      rw [if_neg (by simpa using hne)] at hhead
      simp at hhead
      rw [hhead]
  | cons row rest ih =>
      intro cur prev t hne hhead
      simp only [detectSetsGo] at hhead
      cases h : (isResetAt prev row && !cur.isEmpty)
      · rw [h] at hhead
        simp only [Bool.false_eq_true, if_false] at hhead
        have ht := ih (cur ++ [row]) (some (rowCount row)) t (by simp) hhead
        rw [ht]
        rcases cur with _ | ⟨c, cs⟩
        · exact absurd rfl hne
        · rfl
      · rw [h] at hhead
        simp only [if_true] at hhead
        rw [detectSetsGo_acc] at hhead
        simp only [List.nil_append, List.head?_append] at hhead
        simp at hhead
        rw [hhead]
  
lemma detectSetsGo_chain_sets :
    ∀ (rows cur : List ExcelRow) (prev : Option (Option ℚ)),
      (∀ a, cur.getLast? = some a → prev = some (rowCount a)) →
      List.Chain'
        (fun s t => ∀ a ∈ s.getLast?, ∀ b ∈ t.head?, resetAfter a b = true)
        (detectSetsGo rows cur prev []) := by
  intro rows
  induction rows with
  | nil =>
      intro cur prev _
      simp only [detectSetsGo]
      cases h : cur.isEmpty
      · simp [List.chain'_singleton]
      · simp [List.chain'_nil]
  | cons row rest ih =>
      intro cur prev hprev
      simp only [detectSetsGo]
      cases h : (isResetAt prev row && !cur.isEmpty)
      · simp only [Bool.false_eq_true, if_false]
        refine ih _ _ ?_
        intro a ha
        rw [List.getLast?_concat, Option.some.injEq] at ha
        subst ha
        rfl
      · simp only [if_true]
        rw [detectSetsGo_acc, List.nil_append]
        rw [List.chain'_append]
        refine ⟨List.chain'_singleton cur, ih _ _ ?_, ?_⟩
        · intro a ha
          simp only [List.getLast?_singleton, Option.some.injEq] at ha
          subst ha
          rfl
        · intro x hx t ht a ha b hb
          simp only [List.getLast?_singleton, Option.mem_def, Option.some.injEq] at hx
          subst hx
          rw [Bool.and_eq_true] at h
          have hcurne : cur ≠ [] := by
            intro hc
            rw [hc] at h
            simp at h
          have hthead := detectSetsGo_head rest [row] (some (rowCount row)) t (by simp) ht
          rw [Option.mem_def, hthead] at hb
          simp only [List.head?_cons, Option.some.injEq] at hb
          subst hb
          rw [Option.mem_def] at ha
          have hpa := hprev a ha
          rw [hpa, isResetAt_eq] at h
          exact h.1

lemma detectSetsGo_noReset :
    ∀ (rows cur : List ExcelRow) (prev : Option (Option ℚ)),
      List.Chain' (fun a b => resetAfter a b = false) (cur ++ rows) →
      (∀ a, cur.getLast? = some a → prev = some (rowCount a)) →
      detectSetsGo rows cur prev [] =
        if (cur ++ rows).isEmpty then [] else [cur ++ rows] := by
  intro rows
  induction rows with
  | nil =>
      intro cur prev _ _
      simp only [detectSetsGo, List.append_nil, List.nil_append]
  | cons row rest ih =>
      intro cur prev hchain hprev
      simp only [detectSetsGo]
      rcases hcur : cur with _ | ⟨c, cs⟩
      · simp only [List.isEmpty_nil, Bool.not_true, Bool.and_false,
          Bool.false_eq_true, if_false, List.nil_append]
        rw [ih [row] (some (rowCount row)) ?_ ?_]
        · simp
        · rw [hcur] at hchain
          simpa using hchain
        · intro a ha
          simp only [List.getLast?_singleton, Option.some.injEq] at ha
          subst ha
          rfl
      · rw [← hcur]
        have hcurne : cur ≠ [] := by rw [hcur]; simp
        obtain ⟨last, hlast⟩ : ∃ a, cur.getLast? = some a := by
          rcases hl : cur.getLast? with _ | a
          · rw [List.getLast?_eq_none_iff] at hl
            exact absurd hl hcurne
          · exact ⟨a, rfl⟩
        have hlink : resetAfter last row = false := by
          have hsplit := List.chain'_append.mp hchain
          exact hsplit.2.2 last (by rw [Option.mem_def]; exact hlast) row
            (by simp)
        have hreset : isResetAt prev row = false := by
          rw [hprev last hlast, isResetAt_eq]
          exact hlink
        rw [hreset]
        simp only [Bool.false_and, Bool.false_eq_true, if_false]
        rw [ih (cur ++ [row]) (some (rowCount row)) ?_ ?_]
        · have hne2 : (cur ++ row :: rest).isEmpty = false := by
            rw [hcur]
            simp
          have hne3 : ((cur ++ [row]) ++ rest).isEmpty = false := by
            rw [hcur]
            simp
          rw [hne2, hne3]
          simp
        · have : (cur ++ [row]) ++ rest = cur ++ row :: rest := by simp
          rw [this]
          exact hchain
        · intro a ha
          rw [List.getLast?_concat, Option.some.injEq] at ha
          subst ha
          rfl

lemma detectSets_noReset (data : List ExcelRow)
    (h : List.Chain' (fun a b => resetAfter a b = false) data) :
    detectSets data = [data] := by
  unfold detectSets
  rw [detectSetsGo_noReset data [] none (by simpa using h) (by intro a ha; simp at ha)]
  rcases data with _ | ⟨d, ds⟩
  · simp
  · simp

def rowE : ExcelRow := ⟨some (some 1), some "E", none⟩
def rowF : ExcelRow := ⟨some (some 2), some "F", none⟩

/-- The reading of a row's numeric count used by the claim's words:
fallback 0 when the count is absent OR unparseable.  Used only to state
the counterexample against the claim as written; the source instead
yields JS `NaN` for an unparseable count. -/
def specNumericCount (row : ExcelRow) : ℚ :=
  match row.countField with
  | none => 0
  | some none => 0
  | some (some q) => q

def rowTwo : ExcelRow := ⟨some (some 2), some "G", none⟩
def rowNaN : ExcelRow := ⟨some none, some "H", none⟩

/--
C3 counterexample: the claim reads an unparseable count as 0, which (being
less than the previous count 2) must start a new set; the source instead
gets JS `NaN`, every comparison with which is false, so no new set starts:
the two rows stay in one set, refuting the claimed reset rule.
-/
theorem c3_counterexample :
    specNumericCount rowNaN < specNumericCount rowTwo ∧
    detectSets [rowTwo, rowNaN] = [[rowTwo, rowNaN]] ∧
    detectSets [rowTwo, rowNaN] ≠ [[rowTwo], [rowNaN]] := by
  refine ⟨by norm_num [specNumericCount, rowTwo, rowNaN], by decide, by decide⟩

/--
C3 (amended): `detectSets` starts a new set exactly when `previousCount`
is non-null and the current count equals 1 or is less than
`previousCount`, where an absent count reads as 0 and an unparseable
count is `NaN` — it never equals 1, is never less than anything, and
nothing is less than it (the correction the counterexample forces).
Every row belongs to exactly one set in original order (the sets flatten
back to the input); inside a set no consecutive pair triggers a reset;
across consecutive sets the boundary pair always does; if no reset is
ever detected the whole input is one set; and rows with counts
`[1,2,3,1,2]` split into exactly `[1,2,3]` and `[1,2]`.
-/
theorem c3_set_partition (data : List ExcelRow) :
    (detectSets data).flatten = data ∧
    (∀ s ∈ detectSets data, List.Chain' (fun a b => resetAfter a b = false) s) ∧
    List.Chain' (fun s t => ∀ a ∈ s.getLast?, ∀ b ∈ t.head?, resetAfter a b = true)
      (detectSets data) ∧
    (List.Chain' (fun a b => resetAfter a b = false) data → detectSets data = [data]) ∧
    detectSets [rowA, rowB, rowC, rowE, rowF] = [[rowA, rowB, rowC], [rowE, rowF]] := by
  refine ⟨detectSets_flatten data, ?_, ?_, detectSets_noReset data, by decide⟩
  · intro s hs
    unfold detectSets at hs
    rcases hgo : detectSetsGo data [] none [] with _ | ⟨t, ts⟩
    · rw [hgo] at hs
      simp only [List.isEmpty_nil, if_true, List.mem_singleton] at hs
      have hd := detectSetsGo_flatten data [] none
      rw [hgo] at hd
      simp only [List.flatten_nil, List.nil_append] at hd
      rw [hs, ← hd]
      exact List.chain'_nil
    · have hall := detectSetsGo_chain data [] none List.chain'_nil
        (by intro a ha; simp at ha)
      rw [hgo] at hall hs
      simp only [List.isEmpty_cons, Bool.false_eq_true, if_false] at hs
      exact hall s hs
  · unfold detectSets
    rcases hgo : detectSetsGo data [] none [] with _ | ⟨t, ts⟩
    · simp only [List.isEmpty_nil, if_true]
      exact List.chain'_singleton data
    · have hall := detectSetsGo_chain_sets data [] none (by intro a ha; simp at ha)
      rw [hgo] at hall
      simp only [List.isEmpty_cons, Bool.false_eq_true, if_false]
      exact hall

/-- C3 witness: three rows with increasing counts never reset and come
back as a single set. -/
theorem c3_set_partition_witness :
    List.Chain' (fun a b => resetAfter a b = false) [rowA, rowB, rowC] ∧
    detectSets [rowA, rowB, rowC] = [[rowA, rowB, rowC]] := by
  have hch : List.Chain' (fun a b => resetAfter a b = false) [rowA, rowB, rowC] := by
    simp only [List.chain'_cons, List.chain'_singleton, and_true]
    exact ⟨by decide, by decide⟩
  exact ⟨hch, (c3_set_partition [rowA, rowB, rowC]).2.2.2.1 hch⟩

lemma mapM_error_of_mem {α β : Type} (f : α → Except Unit β) :
    ∀ l : List α, (∃ x ∈ l, f x = .error ()) → l.mapM f = .error () := by
  intro l
  induction l with
  | nil =>
      intro h
      simp at h
  | cons a as ih =>
      intro h
      obtain ⟨x, hx, hfx⟩ := h
      rw [List.mapM_cons]
      rcases List.mem_cons.mp hx with rfl | hx2
      · rw [hfx]
        rfl
      · cases hfa : f a with
        | error e =>
            cases e
            rfl
        | ok v =>
            have hrec := ih ⟨x, hx2, hfx⟩
            show (as.mapM f >>= fun bs => pure (v :: bs)) = .error ()
            rw [hrec]
            rfl

lemma mapM_ok_of_forall {α β : Type} (f : α → Except Unit β) :
    ∀ l : List α, (∀ x ∈ l, ∃ y, f x = .ok y) → ∃ z, l.mapM f = .ok z := by
  intro l
  induction l with
  | nil =>
      intro _
      exact ⟨[], rfl⟩
  | cons a as ih =>
      intro h
      obtain ⟨y, hy⟩ := h a (List.mem_cons_self a as)
      obtain ⟨z, hz⟩ := ih (fun x hx => h x (List.mem_cons_of_mem a hx))
      refine ⟨y :: z, ?_⟩
      rw [List.mapM_cons]
      show (f a >>= fun b => as.mapM f >>= fun bs => pure (b :: bs)) = Except.ok (y :: z)
      rw [hy]
      show (as.mapM f >>= fun bs => pure (y :: bs)) = Except.ok (y :: z)
      rw [hz]
      rfl

def rowOK : ExcelRow := ⟨some (some 1), some "S1", some "OK1"⟩
def rowBad : ExcelRow := ⟨some (some 2), some "S2", some "BAD"⟩

def dataC8 : List ExcelRow := [rowOK, rowBad]

def encodeC8 : String → Except Unit String :=
  fun s => if s = "BAD" then .error () else .ok ("data:" ++ s)

lemma defaultOptions_boxesPerPage : (calculateLayout defaultOptions).boxesPerPage = 18 := by
  norm_num [calculateLayout, defaultOptions, getPageDimensions, orDefault, truthyNat]

/--
C8 evaluated at the failing input: the claim says a single failing code
encode only omits that box's image while its border, count label and
serial still render and the run continues; in the source the whole box is
drawn inside the promise's resolved continuation and the rejected promise
propagates through `Promise.all` with no `catch`, so the run aborts with
nothing drawn for that box — with a total encoder the same input
succeeds (code bug).
-/
theorem c8_encoding_failure_aborts :
    generatePDFRender dataC8 defaultOptions encodeC8 = .error () ∧
    (∃ out, generatePDFRender dataC8 defaultOptions
      (fun s => .ok ("data:" ++ s)) = .ok out) := by
  constructor
  · have hk : 0 < (calculateLayout defaultOptions).boxesPerPage := by
      rw [defaultOptions_boxesPerPage]
      omega
    have hflat := generatePDFPages_flatten_rowData dataC8 defaultOptions hk
    have hrhs : (detectSets dataC8).flatMap (fun s =>
        s.flatMap (fun row => List.replicate (repeatCount defaultOptions) row)) = dataC8 := by
      decide
    rw [hrhs] at hflat
    have hmem : rowBad ∈ ((generatePDFPages dataC8 defaultOptions).flatten).map
        PlacedBox.rowData := by
      rw [hflat]
      decide
    rw [List.mem_map] at hmem
    obtain ⟨b, hbflat, hbrow⟩ := hmem
    rw [List.mem_flatten] at hbflat
    obtain ⟨pg, hpg, hbpg⟩ := hbflat
    have hrb : renderBox encodeC8 defaultOptions b = .error () := by
      unfold renderBox strOr
      rw [hbrow]
      rfl
    unfold generatePDFRender
    exact mapM_error_of_mem _ _ ⟨pg, hpg, mapM_error_of_mem _ _ ⟨b, hbpg, hrb⟩⟩
  · unfold generatePDFRender
    exact mapM_ok_of_forall _ _ (fun pg hpg =>
      mapM_ok_of_forall _ _ (fun b hb => ⟨_, rfl⟩))

/--
C5 witness: the amended content-position theorem applied to the default
options, whose gaps are the nonzero defaults.
-/
theorem c5_content_positions_witness :
    defaultOptions.serialToBoxGap ≠ 0 ∧
    (calculateContentPositions defaultOptions).serialX = defaultOptions.serialToBoxGap :=
  ⟨by norm_num [defaultOptions],
   (c5_content_positions defaultOptions (by norm_num [defaultOptions])
     (by norm_num [defaultOptions]) (by norm_num [defaultOptions])).1⟩

/--
C6 (scenario A): for A4 portrait (210×297 mm), box 50×30 mm, spacing
10 mm, footer disabled, `calculateLayout` auto-derives
`boxesPerRow = ⌊200/60⌋ = 3`, `boxesPerColumn = ⌊287/40⌋ = 7` and
`boxesPerPage = 21`; enabling the footer (the only change) excludes the
30 mm band and drops `boxesPerColumn` to `⌊257/40⌋ = 6`, so the band is
excluded exactly when the footer is enabled.
-/
theorem c6_scenarioA_layout :
    (calculateLayout optsA).boxesPerRow = 3 ∧
    (calculateLayout optsA).boxesPerColumn = 7 ∧
    (calculateLayout optsA).boxesPerPage = 21 ∧
    (calculateLayout { optsA with showFooter := true }).boxesPerRow = 3 ∧
    (calculateLayout { optsA with showFooter := true }).boxesPerColumn = 6 := by
  norm_num [calculateLayout, optsA, defaultOptions, getPageDimensions, orDefault, truthyNat]

/-- Scenario C data: counts 1,2,3 then a reset to 1,2 — two sets. -/
def data5 : List ExcelRow := [rowA, rowB, rowC, rowE, rowF]

/--
C4 witness: on the two-set input of scenario C the second set (index 1)
indeed starts with a box at in-set index 0, on its own page.
-/
theorem c4_sets_start_fresh_pages_witness :
    (detectSets data5).length = 2 ∧
    (∃ pg ∈ generatePDFPages data5 optsA, ∃ a ∈ pg, a.setIndex = 1 ∧ a.boxIndex = 0) :=
  ⟨by decide,
   (c4_sets_start_fresh_pages data5 optsA
     (by rw [optsA_boxesPerPage]; omega)).2.2 1 (by decide) (by decide)⟩

end QRGen
